import Mathlib

/-!
Shallow embedding of the interactive chat client `claude.py`.

Python strings are modelled as lists of characters (`Str`).  Conversation
entries (Python dicts with keys "role" and "content") become the structure
`Turn`.  Exceptions are modelled by the explicit result type `PCResult`
(for `process_commands`) and by `Option`/outcome types elsewhere; console
output and the log-file append are recorded as an explicit list of
`Effect`s in the order the Python code performs them.

Python builtins that live outside the repository are passed in as
parameters of `StepEnv`: `pyFloat`/`pyInt` model `float(...)`/`int(...)`
(returning `none` exactly when the builtin would raise `ValueError`),
`saveResult` models whether the `open`/`write` calls of `/save` raise,
`now` models `datetime.now().strftime(...)`, `showFloat` models Python's
rendering of a float in an f-string, and `stream` models the behaviour of
the remote streaming call.  Purely cosmetic blank-line `print()` calls of
the chat loop are not recorded.  Temperatures (Python floats) are
modelled as rationals.
-/

/-- Python strings, modelled as lists of characters. -/
abbrev Str := List Char

/-- Python `str.lower()`: lowercase every character. -/
def lower (s : Str) : Str := s.map Char.toLower

/-- Python `str.strip()`: drop leading and trailing whitespace. -/
def strip (s : Str) : Str :=
  ((s.dropWhile Char.isWhitespace).reverse.dropWhile Char.isWhitespace).reverse

/-- One conversation entry, translating the dicts
`{"role": r, "content": c}` of `claude.py`. -/
structure Turn where
  role : Str
  content : Str
  deriving DecidableEq

/-- The dataclass `ClaudeConfig` of `claude.py`. -/
structure ClaudeConfig where
  max_tokens : Int
  temperature : ℚ
  model : Str
  system_prompt : Str
  deriving DecidableEq

/-- The dataclass defaults of `ClaudeConfig` (`temperature = 0.8`). -/
def ClaudeConfig.default : ClaudeConfig :=
  { max_tokens := 1024, temperature := 4/5,
    model := ("claude-3-5-sonnet-latest".toList),
    system_prompt := ("You are a good Claude!".toList) }

/-- Exceptions `claude.py` can raise while handling one input. -/
inductive PyExc
  | valueError (msg : Str)
  | indexError
  | ioError (msg : Str)
  | apiError (msg : Str)
  deriving DecidableEq

/-- The text `str(e)` that the generic handler interpolates into
`"Error: <e>"`. -/
def PyExc.describe : PyExc → Str
  | .valueError m => m
  | .indexError => ("list index out of range".toList)
  | .ioError m => m
  | .apiError m => m

/-- Observable side effects of one loop iteration, in order: console
prints and the `/save` log append (which dumps the full conversation as
it is at the moment of the write, together with the timestamp line). -/
inductive Effect
  | print (s : Str)
  | fileAppend (timestamp : Str) (dumped : List Turn)
  deriving DecidableEq

/-- The prints of `show_help()`. -/
def show_help : List Effect :=
  [.print ("Available commands:".toList),
   .print ("/sys <new_prompt> - Change the system prompt".toList),
   .print ("/temp <value> - Change the temperature".toList),
   .print ("/max <value> - Change the max tokens".toList),
   .print ("/env - Show the current environment settings".toList),
   .print ("/new - Clear the conversation history".toList),
   .print ("/exit, /quit, /bye - Exit the chat".toList),
   .print ("/help - Show this help".toList)]

def sysCmd : Str := "/sys".toList
def tempCmd : Str := "/temp".toList
def maxCmd : Str := "/max".toList
def envCmd : Str := "/env".toList
def saveCmd : Str := "/save".toList
def newCmd : Str := "/new".toList
def helpCmd : Str := "/help".toList
def exitCmd : Str := "/exit".toList
def quitCmd : Str := "/quit".toList
def byeCmd : Str := "/bye".toList

def systemRole : Str := "system".toList
def userRole : Str := "user".toList
def assistantRole : Str := "assistant".toList

/-- Message of the `ValueError` raised by `float(s)`. -/
def floatErrMsg (s : Str) : Str := ("could not convert string to float: ".toList) ++ s

/-- Message of the `ValueError` raised by `int(s)`. -/
def intErrMsg (s : Str) : Str := ("invalid literal for int() with base 10: ".toList) ++ s

/-- One fragment of the streaming response (`chunk.type`,
`chunk.delta.text`). -/
structure Chunk where
  type : Str
  text : Str
  deriving DecidableEq

/-- Behaviour of the remote streaming call for one turn: either
`client.messages.create` itself raises, or it yields the chunks `cs` and
then either ends normally (`err = none`) or raises while being consumed
(`err = some e`, after all of `cs` were delivered). -/
inductive StreamBehavior
  | createRaises (exc : PyExc)
  | chunks (cs : List Chunk) (err : Option PyExc)
  deriving DecidableEq

/-- The ambient behaviour of Python builtins and of the outside world
during one loop iteration (see the module comment). -/
structure StepEnv where
  pyFloat : Str → Option ℚ
  pyInt : Str → Option Int
  saveResult : Option PyExc
  now : Str
  showFloat : ℚ → Str
  stream : StreamBehavior

/-- Result of `process_commands`: translating the Python return values
`(True, history, config)` (command handled, with its prints/log effects),
`(None, history, config)` (not a command), the `sys.exit(0)` of the exit
commands, and a propagating exception together with the state the
in-place mutations have left behind at the moment it is raised. -/
inductive PCResult
  | handled (conversation : List Turn) (config : ClaudeConfig) (effects : List Effect)
  | notCommand (conversation : List Turn) (config : ClaudeConfig)
  | exitProcess (effects : List Effect)
  | raised (exc : PyExc) (conversation : List Turn) (config : ClaudeConfig)
  deriving DecidableEq

/-- Translation of `process_commands` of `claude.py`, branch for branch
in source order.  `user_input[5:]` becomes `List.drop 5`, `.strip()`
becomes `strip`, `.lower()` becomes `lower`, `.startswith(p)` becomes
`p.isPrefixOf`.  Indexing `conversation_history[0]` on an empty list
raises `IndexError`; `float`/`int` raise `ValueError` when the parse
parameter returns `none`; the `/save` file write raises `env.saveResult`
when it is `some`.  On `/save` the `fileAppend` effect records the full
pre-reset conversation: the log write happens before the reset. -/
def process_commands (env : StepEnv) (user_input : Str)
    (conversation_history : List Turn) (config : ClaudeConfig) : PCResult :=
  if sysCmd.isPrefixOf user_input then
    match conversation_history with
    | [] => .raised .indexError [] config
    | t :: rest =>
      .handled (⟨t.role, strip (user_input.drop 5)⟩ :: rest) config
        [.print (("System prompt changed to: ".toList) ++ strip (user_input.drop 5))]
  else if tempCmd.isPrefixOf user_input then
    match env.pyFloat (strip (user_input.drop 5)) with
    | none => .raised (.valueError (floatErrMsg (strip (user_input.drop 5))))
        conversation_history config
    | some v =>
      .handled conversation_history { config with temperature := v }
        [.print (("Temperature changed to: ".toList) ++ env.showFloat v)]
  else if maxCmd.isPrefixOf user_input then
    match env.pyInt (strip (user_input.drop 4)) with
    | none => .raised (.valueError (intErrMsg (strip (user_input.drop 4))))
        conversation_history config
    | some v =>
      .handled conversation_history { config with max_tokens := v }
        [.print (("Max tokens changed to: ".toList) ++ (toString v).toList)]
  else if lower user_input = envCmd then
    match conversation_history with
    | [] => .raised .indexError [] config
    | t :: _ =>
      .handled conversation_history config
        [.print (("System prompt: ".toList) ++ t.content),
         .print (("Temperature: ".toList) ++ env.showFloat config.temperature),
         .print (("Max tokens: ".toList) ++ (toString config.max_tokens).toList)]
  else if lower user_input = saveCmd then
    match env.saveResult with
    | some e => .raised e conversation_history config
    | none =>
      match conversation_history with
      | [] => .raised .indexError [] config
      | t :: rest =>
        .handled [t] config
          [.fileAppend env.now (t :: rest),
           .print ("Conversation appended to log".toList)]
  else if lower user_input = newCmd then
    match conversation_history with
    | [] => .raised .indexError [] config
    | t :: _ =>
      .handled [t] config [.print ("Conversation history cleared.".toList)]
  else if helpCmd.isPrefixOf (lower user_input) ∨ user_input = [] then
    .handled conversation_history config show_help
  else if lower user_input ∈ [exitCmd, quitCmd, byeCmd] then
    .exitProcess [.print ("Exiting gracefully...".toList)]
  else
    .notCommand conversation_history config

/-- Result of `read_multiline_input`: `exited code effs` models the
`sys.exit()` on end-of-input at the primary read (`sys.exit()` with no
argument exits with status 0), `value s rest effs` returns the logical
input `s` with the raw lines `rest` still unread. -/
inductive ReadResult
  | exited (code : Nat) (effects : List Effect)
  | value (s : Str) (rest : List Str) (effects : List Effect)
  deriving DecidableEq

/-- The effects (prompt print, end-of-input notice) of a read. -/
def ReadResult.effects : ReadResult → List Effect
  | .exited _ e => e
  | .value _ _ e => e

/-- The exit status, when the read terminated the process. -/
def ReadResult.code : ReadResult → Option Nat
  | .exited c _ => some c
  | .value _ _ _ => none

/-- Translation of `read_multiline_input` of `claude.py`.  The remaining
standard-input lines are `stdin`; an empty list means `input()` raises
`EOFError`.  A first line not starting with a backslash is returned
unchanged; otherwise every remaining line is consumed (no marker check)
and all lines, the marker line included, are joined with newlines. -/
def read_multiline_input (prompt : Str) (stdin : List Str) : ReadResult :=
  match stdin with
  | [] => .exited 0 [.print prompt]
  | line :: rest =>
    if !(("\\".toList).isPrefixOf line) then
      .value line rest [.print prompt]
    else
      .value (List.intercalate ("\n".toList) (line :: rest)) []
        [.print prompt, .print ("\n<end of input>\n".toList)]

/-- The single outbound request that `ask_claude` builds and issues
(`stream := true` is the literal `stream=True` argument). -/
structure Request where
  model : Str
  system : Str
  messages : List Turn
  max_tokens : Int
  temperature : ℚ
  stream : Bool
  deriving DecidableEq

/-- Translation of `ask_claude` of `claude.py`: `messages[0]` raises on
an empty list (`none`); otherwise one request is built with the system
instruction `messages[0]["content"]`, the tail mapped so that role
"assistant" is kept and every other role becomes "user", and the
generation parameters taken from the configuration. -/
def ask_claude (messages : List Turn) (config : ClaudeConfig) : Option Request :=
  match messages with
  | [] => none
  | m0 :: rest =>
    some { model := config.model,
           system := m0.content,
           messages := rest.map (fun m =>
             ⟨if m.role = assistantRole then assistantRole else userRole, m.content⟩),
           max_tokens := config.max_tokens,
           temperature := config.temperature,
           stream := true }

/-- The role normalization `ask_claude` applies to each non-system turn. -/
def normalizeTurn (m : Turn) : Turn :=
  ⟨if m.role = assistantRole then assistantRole else userRole, m.content⟩

def deltaType : Str := "content_block_delta".toList

/-- The assembled assistant reply: concatenation of the texts of the
`content_block_delta` chunks, in order (the `assistant_reply += ...`
accumulation of the chat loop). -/
def streamReply (cs : List Chunk) : Str :=
  ((cs.filter (fun c => c.type == deltaType)).map Chunk.text).flatten

/-- The per-chunk prints of the streaming loop. -/
def chunkPrints (cs : List Chunk) : List Effect :=
  (cs.filter (fun c => c.type == deltaType)).map (fun c => .print c.text)

/-- The `"Error: <e>"` line printed by the generic exception handler of
the chat loop. -/
def errLine (e : PyExc) : Str := ("Error: ".toList) ++ e.describe

/-- What the chat loop is about to do after one iteration: continue, or
the process exited with the given status. -/
inductive LoopOutcome
  | next
  | exited (code : Nat)
  deriving DecidableEq

/-- State and observable behaviour after one iteration of the chat
loop. -/
structure StepResult where
  conversation : List Turn
  config : ClaudeConfig
  effects : List Effect
  outcome : LoopOutcome
  deriving DecidableEq

/-- One iteration of the `while True` body of `chat()` of `claude.py`,
starting from the already-read logical input `user_input`.  A handled
command just continues; the exit commands leave the loop with status 0;
a propagating exception is caught by the generic `except Exception`
handler which prints `"Error: <e>"` and continues.  A non-command first
appends the user turn (an in-place mutation that survives any later
exception), then consumes the stream: on success the assembled reply
plus a newline is appended as the assistant turn; if the create call or
the consumption raises, no assistant turn is appended and the generic
handler prints the error. -/
def chatStep (env : StepEnv) (user_input : Str)
    (conversation_history : List Turn) (config : ClaudeConfig) : StepResult :=
  match process_commands env user_input conversation_history config with
  | .handled c k effs => ⟨c, k, effs, .next⟩
  | .exitProcess effs => ⟨conversation_history, config, effs, .exited 0⟩
  | .raised e c k => ⟨c, k, [.print (errLine e)], .next⟩
  | .notCommand c k =>
    match env.stream with
    | .createRaises e =>
      ⟨c ++ [⟨userRole, user_input⟩], k, [.print (errLine e)], .next⟩
    | .chunks cs (some e) =>
      ⟨c ++ [⟨userRole, user_input⟩], k, chunkPrints cs ++ [.print (errLine e)], .next⟩
    | .chunks cs none =>
      ⟨c ++ [⟨userRole, user_input⟩, ⟨assistantRole, streamReply cs ++ ("\n".toList)⟩], k,
       chunkPrints cs, .next⟩

/-- The conversation `chat()` starts with: exactly the system turn. -/
def initial_conversation (config : ClaudeConfig) : List Turn :=
  [⟨systemRole, config.system_prompt⟩]

/-- The conversation invariant: non-empty, the entry at index 0 has role
"system", and no other entry has role "system". -/
def convInv (c : List Turn) : Bool :=
  match c with
  | [] => false
  | t :: rest => t.role == systemRole && rest.all (fun u => !(u.role == systemRole))

/-! Helper lemmas about prefixes and lowercasing, used to discharge the
dispatch guards of `process_commands`. -/

theorem isPrefixOf_false_of_incomp {p q t : Str}
    (hq : q.isPrefixOf t = true)
    (h1 : p.isPrefixOf q = false)
    (h2 : q.isPrefixOf p = false) :
    p.isPrefixOf t = false := by
  cases hps : p.isPrefixOf t
  · rfl
  · exfalso
    rcases List.prefix_or_prefix_of_prefix (Iff.mp List.isPrefixOf_iff_prefix hps)
        (Iff.mp List.isPrefixOf_iff_prefix hq) with h | h
    · rw [Iff.mpr List.isPrefixOf_iff_prefix h] at h1
      exact absurd h1 (by decide)
    · rw [Iff.mpr List.isPrefixOf_iff_prefix h] at h2
      exact absurd h2 (by decide)

theorem lower_isPrefixOf {p s : Str} (h : p.isPrefixOf s = true) :
    (lower p).isPrefixOf (lower s) = true := by
  have hp : p <+: s := Iff.mp List.isPrefixOf_iff_prefix h
  exact Iff.mpr List.isPrefixOf_iff_prefix (List.IsPrefix.map Char.toLower hp)

theorem raw_guard_false {p q s : Str}
    (hq : q.isPrefixOf (lower s) = true)
    (h1 : (lower p).isPrefixOf q = false)
    (h2 : q.isPrefixOf (lower p) = false) :
    p.isPrefixOf s = false := by
  cases hps : p.isPrefixOf s
  · rfl
  · exact absurd (isPrefixOf_false_of_incomp hq h1 h2)
      (by rw [lower_isPrefixOf hps]; decide)

theorem lower_ne_of_not_prefix {q t e : Str}
    (hq : q.isPrefixOf t = true) (h : q.isPrefixOf e = false) : t ≠ e := by
  intro he
  rw [he] at hq
  rw [hq] at h
  exact absurd h (by decide)

theorem ne_nil_of_isPrefixOf {q s : Str}
    (hq : q.isPrefixOf (lower s) = true) (h0 : q ≠ []) : s ≠ [] := by
  intro h
  subst h
  cases q with
  | nil => exact h0 rfl
  | cons a as => simp [lower, List.isPrefixOf] at hq

/-- When every dispatch guard is false, `process_commands` falls through
to the "not a command" outcome with conversation and configuration
untouched. -/
theorem pc_notCommand_of_guards (env : StepEnv) (conv : List Turn)
    (cfg : ClaudeConfig) (input : Str)
    (h1 : sysCmd.isPrefixOf input = false)
    (h2 : tempCmd.isPrefixOf input = false)
    (h3 : maxCmd.isPrefixOf input = false)
    (h4 : lower input ≠ envCmd)
    (h5 : lower input ≠ saveCmd)
    (h6 : lower input ≠ newCmd)
    (h7 : helpCmd.isPrefixOf (lower input) = false)
    (h8 : input ≠ [])
    (h9 : lower input ∉ [exitCmd, quitCmd, byeCmd]) :
    process_commands env input conv cfg = .notCommand conv cfg := by
  unfold process_commands
  simp [h1, h2, h3, h4, h5, h6, h7, h8, h9]

/-- After a "not a command" outcome the loop appends the user turn with
the raw input and continues, whatever the stream does. -/
theorem chatStep_appends_user (env : StepEnv) (conv : List Turn)
    (cfg : ClaudeConfig) (input : Str)
    (hpc : process_commands env input conv cfg = .notCommand conv cfg) :
    (chatStep env input conv cfg).outcome = .next ∧
    ∃ tail, (chatStep env input conv cfg).conversation =
      conv ++ ⟨userRole, input⟩ :: tail := by
  unfold chatStep
  rw [hpc]
  cases hs : env.stream with
  | createRaises e => exact ⟨rfl, [], rfl⟩
  | chunks cs err =>
    cases err with
    | none => exact ⟨rfl, [⟨assistantRole, streamReply cs ++ ("\n".toList)⟩], rfl⟩
    | some e => exact ⟨rfl, [], rfl⟩

/-- Claim C1: for every input line that matches no recognized
slash-command prefix, `process_commands` returns the "not a command"
indicator with the conversation and configuration unmodified, and the
chat loop then appends a user turn whose content is exactly the original
input text. -/
theorem c1_non_command_forwarded (env : StepEnv) (conv : List Turn)
    (cfg : ClaudeConfig) (input : Str)
    (h1 : sysCmd.isPrefixOf input = false)
    (h2 : tempCmd.isPrefixOf input = false)
    (h3 : maxCmd.isPrefixOf input = false)
    (h4 : lower input ≠ envCmd)
    (h5 : lower input ≠ saveCmd)
    (h6 : lower input ≠ newCmd)
    (h7 : helpCmd.isPrefixOf (lower input) = false)
    (h8 : input ≠ [])
    (h9 : lower input ∉ [exitCmd, quitCmd, byeCmd]) :
    process_commands env input conv cfg = .notCommand conv cfg ∧
    ∃ tail, (chatStep env input conv cfg).conversation =
      conv ++ ⟨userRole, input⟩ :: tail := by
  have hpc := pc_notCommand_of_guards env conv cfg input h1 h2 h3 h4 h5 h6 h7 h8 h9
  exact ⟨hpc, (chatStep_appends_user env conv cfg input hpc).2⟩

/-! Concrete instantiations used by the witnesses. -/

def noneFloat : Str → Option ℚ := fun _ => none

def noneInt : Str → Option Int := fun _ => none

def showFloatW : ℚ → Str := fun _ => []

/-- A benign environment: parses always fail, the save write succeeds,
the stream yields no chunks and ends normally. -/
def envOk : StepEnv :=
  { pyFloat := noneFloat, pyInt := noneInt, saveResult := none, now := [],
    showFloat := showFloatW, stream := .chunks [] none }

/-- Witness for C1 at the input "Hello". -/
theorem c1_non_command_forwarded_witness :
    (sysCmd.isPrefixOf ("Hello".toList) = false) ∧
    (tempCmd.isPrefixOf ("Hello".toList) = false) ∧
    (maxCmd.isPrefixOf ("Hello".toList) = false) ∧
    (lower ("Hello".toList) ≠ envCmd) ∧
    (lower ("Hello".toList) ≠ saveCmd) ∧
    (lower ("Hello".toList) ≠ newCmd) ∧
    (helpCmd.isPrefixOf (lower ("Hello".toList)) = false) ∧
    (("Hello".toList) ≠ ([] : Str)) ∧
    (lower ("Hello".toList) ∉ [exitCmd, quitCmd, byeCmd]) ∧
    (process_commands envOk ("Hello".toList)
        (initial_conversation ClaudeConfig.default) ClaudeConfig.default =
      .notCommand (initial_conversation ClaudeConfig.default) ClaudeConfig.default ∧
    ∃ tail, (chatStep envOk ("Hello".toList)
        (initial_conversation ClaudeConfig.default) ClaudeConfig.default).conversation =
      initial_conversation ClaudeConfig.default ++ ⟨userRole, "Hello".toList⟩ :: tail) :=
  ⟨by decide, by decide, by decide, by decide, by decide, by decide, by decide,
   by decide, by decide,
   c1_non_command_forwarded envOk (initial_conversation ClaudeConfig.default)
     ClaudeConfig.default ("Hello".toList) (by decide) (by decide) (by decide)
     (by decide) (by decide) (by decide) (by decide) (by decide) (by decide)⟩

/-- Claim C2: immediately after a handled `/new`, and after a `/save`
whose file write completes, the conversation returned by
`process_commands` is exactly the one-element list holding the previous
system turn unchanged (and the configuration is untouched). -/
theorem c2_reset_to_system_turn (env : StepEnv) (cfg : ClaudeConfig)
    (input : Str) (t : Turn) (rest : List Turn)
    (h : lower input = newCmd ∨ (lower input = saveCmd ∧ env.saveResult = none)) :
    ∃ effs, process_commands env input (t :: rest) cfg = .handled [t] cfg effs := by
  rcases h with h | ⟨h, hs⟩
  · have hq : newCmd.isPrefixOf (lower input) = true := by rw [h]; decide
    have h1 : sysCmd.isPrefixOf input = false := raw_guard_false hq (by decide) (by decide)
    have h2 : tempCmd.isPrefixOf input = false := raw_guard_false hq (by decide) (by decide)
    have h3 : maxCmd.isPrefixOf input = false := raw_guard_false hq (by decide) (by decide)
    refine ⟨[.print ("Conversation history cleared.".toList)], ?_⟩
    unfold process_commands
    simp [h1, h2, h3, h, show newCmd ≠ envCmd by decide,
      show newCmd ≠ saveCmd by decide]
  · have hq : saveCmd.isPrefixOf (lower input) = true := by rw [h]; decide
    have h1 : sysCmd.isPrefixOf input = false := raw_guard_false hq (by decide) (by decide)
    have h2 : tempCmd.isPrefixOf input = false := raw_guard_false hq (by decide) (by decide)
    have h3 : maxCmd.isPrefixOf input = false := raw_guard_false hq (by decide) (by decide)
    refine ⟨[.fileAppend env.now (t :: rest),
             .print ("Conversation appended to log".toList)], ?_⟩
    unfold process_commands
    simp [h1, h2, h3, h, hs, show saveCmd ≠ envCmd by decide]

/-- Witness for C2 at the input "/new". -/
theorem c2_reset_to_system_turn_witness :
    (lower ("/new".toList) = newCmd ∨
      (lower ("/new".toList) = saveCmd ∧ envOk.saveResult = none)) ∧
    ∃ effs, process_commands envOk ("/new".toList)
        (⟨systemRole, "hi".toList⟩ :: [⟨userRole, "x".toList⟩]) ClaudeConfig.default =
      .handled [⟨systemRole, "hi".toList⟩] ClaudeConfig.default effs :=
  ⟨Or.inl (by decide),
   c2_reset_to_system_turn envOk ClaudeConfig.default ("/new".toList)
     ⟨systemRole, "hi".toList⟩ [⟨userRole, "x".toList⟩] (Or.inl (by decide))⟩

/-- Case analysis on `process_commands` over a non-empty conversation:
the conversation it hands back is either the input with the head content
replaced (`/sys`), the input unchanged, the reset `[t]`, or — for the
exit commands and for the "not a command" outcome and every propagating
exception — the input unchanged. -/
theorem process_commands_shape (env : StepEnv) (cfg : ClaudeConfig) (input : Str)
    (t : Turn) (rest : List Turn) :
    (∃ x effs, process_commands env input (t :: rest) cfg =
      .handled (⟨t.role, x⟩ :: rest) cfg effs) ∨
    (∃ k effs, process_commands env input (t :: rest) cfg =
      .handled (t :: rest) k effs) ∨
    (∃ effs, process_commands env input (t :: rest) cfg = .handled [t] cfg effs) ∨
    (∃ effs, process_commands env input (t :: rest) cfg = .exitProcess effs) ∨
    (∃ e k, process_commands env input (t :: rest) cfg = .raised e (t :: rest) k) ∨
    process_commands env input (t :: rest) cfg = .notCommand (t :: rest) cfg := by
  unfold process_commands
  by_cases h1 : sysCmd.isPrefixOf input = true
  · rw [if_pos h1]
    exact .inl ⟨_, _, rfl⟩
  rw [if_neg h1]
  by_cases h2 : tempCmd.isPrefixOf input = true
  · rw [if_pos h2]
    cases henv : env.pyFloat (strip (input.drop 5))
    · exact .inr (.inr (.inr (.inr (.inl ⟨_, _, rfl⟩))))
    · exact .inr (.inl ⟨_, _, rfl⟩)
  rw [if_neg h2]
  by_cases h3 : maxCmd.isPrefixOf input = true
  · rw [if_pos h3]
    cases henv : env.pyInt (strip (input.drop 4))
    · exact .inr (.inr (.inr (.inr (.inl ⟨_, _, rfl⟩))))
    · exact .inr (.inl ⟨_, _, rfl⟩)
  rw [if_neg h3]
  by_cases h4 : lower input = envCmd
  · rw [if_pos h4]
    exact .inr (.inl ⟨_, _, rfl⟩)
  rw [if_neg h4]
  by_cases h5 : lower input = saveCmd
  · rw [if_pos h5]
    cases henv : env.saveResult
    · exact .inr (.inr (.inl ⟨_, rfl⟩))
    · exact .inr (.inr (.inr (.inr (.inl ⟨_, _, rfl⟩))))
  rw [if_neg h5]
  by_cases h6 : lower input = newCmd
  · rw [if_pos h6]
    exact .inr (.inr (.inl ⟨_, rfl⟩))
  rw [if_neg h6]
  by_cases h7 : helpCmd.isPrefixOf (lower input) = true ∨ input = []
  · rw [if_pos h7]
    exact .inr (.inl ⟨_, _, rfl⟩)
  rw [if_neg h7]
  by_cases h8 : lower input ∈ [exitCmd, quitCmd, byeCmd]
  · rw [if_pos h8]
    exact .inr (.inr (.inr (.inl ⟨_, rfl⟩)))
  rw [if_neg h8]
  exact .inr (.inr (.inr (.inr (.inr rfl))))

/-- Appending a non-system turn preserves the conversation invariant. -/
theorem convInv_append (c : List Turn) (u : Turn) (h : convInv c = true)
    (hu : (u.role == systemRole) = false) : convInv (c ++ [u]) = true := by
  cases c with
  | nil => simp [convInv] at h
  | cons t rest =>
    simp only [convInv, Bool.and_eq_true, List.all_eq_true] at h
    simp only [List.cons_append, convInv, Bool.and_eq_true, List.all_eq_true]
    refine ⟨h.1, fun u' hu' => ?_⟩
    rcases List.mem_append.mp hu' with hm | hm
    · exact h.2 u' hm
    · simp only [List.mem_singleton] at hm
      subst hm
      simp [hu]

/-- Claim C3: every operation that mutates the conversation — any
handled command in `process_commands` and the user/assistant appends of
the chat loop — preserves the invariant that the conversation is
non-empty, its element at index 0 has role "system", and no other
element has role "system". -/
theorem c3_conversation_invariant (env : StepEnv) (cfg : ClaudeConfig)
    (input : Str) (conv : List Turn) (h : convInv conv = true) :
    (∀ c k effs, process_commands env input conv cfg = .handled c k effs →
      convInv c = true) ∧
    convInv (chatStep env input conv cfg).conversation = true := by
  obtain ⟨t, rest, rfl⟩ : ∃ t rest, conv = t :: rest := by
    cases conv with
    | nil => simp [convInv] at h
    | cons t rest => exact ⟨t, rest, rfl⟩
  have hsysrole : (t.role == systemRole) = true := by
    have h' := h
    simp only [convInv, Bool.and_eq_true] at h'
    exact h'.1
  have hone : convInv [t] = true := by simp [convInv, hsysrole]
  have hhandled : ∀ c k effs,
      process_commands env input (t :: rest) cfg = .handled c k effs →
      convInv c = true := by
    intro c k effs hpc
    rcases process_commands_shape env cfg input t rest with
      ⟨x, e1, hx⟩ | ⟨k1, e1, hx⟩ | ⟨e1, hx⟩ | ⟨e1, hx⟩ | ⟨e1, k1, hx⟩ | hx <;>
      rw [hx] at hpc
    · injection hpc with hc hk he
      subst hc
      simpa [convInv] using h
    · injection hpc with hc hk he
      subst hc
      exact h
    · injection hpc with hc hk he
      subst hc
      exact hone
    · exact PCResult.noConfusion hpc
    · exact PCResult.noConfusion hpc
    · exact PCResult.noConfusion hpc
  refine ⟨hhandled, ?_⟩
  unfold chatStep
  rcases process_commands_shape env cfg input t rest with
    ⟨x, e1, hx⟩ | ⟨k1, e1, hx⟩ | ⟨e1, hx⟩ | ⟨e1, hx⟩ | ⟨e1, k1, hx⟩ | hx <;> rw [hx]
  · exact hhandled _ _ _ hx
  · exact hhandled _ _ _ hx
  · exact hhandled _ _ _ hx
  · exact h
  · exact h
  · have hune : (userRole == systemRole) = false := by decide
    have hane : (assistantRole == systemRole) = false := by decide
    cases henv : env.stream with
    | createRaises e => exact convInv_append _ ⟨userRole, input⟩ h hune
    | chunks cs err =>
      cases err with
      | some e => exact convInv_append _ ⟨userRole, input⟩ h hune
      | none =>
        have hu := convInv_append (t :: rest) ⟨userRole, input⟩ h hune
        have ha := convInv_append ((t :: rest) ++ [⟨userRole, input⟩])
          ⟨assistantRole, streamReply cs ++ ("\n".toList)⟩ hu hane
        simpa using ha

/-- Witness for C3 at the initial conversation and the input "Hello". -/
theorem c3_conversation_invariant_witness :
    (convInv (initial_conversation ClaudeConfig.default) = true) ∧
    ((∀ c k effs, process_commands envOk ("Hello".toList)
        (initial_conversation ClaudeConfig.default) ClaudeConfig.default =
          .handled c k effs → convInv c = true) ∧
    convInv (chatStep envOk ("Hello".toList)
        (initial_conversation ClaudeConfig.default)
        ClaudeConfig.default).conversation = true) :=
  ⟨by decide, c3_conversation_invariant envOk ClaudeConfig.default
    ("Hello".toList) (initial_conversation ClaudeConfig.default) (by decide)⟩

/-- Claim C4: a `/temp` or `/max` command whose argument does not parse
raises out of `process_commands` (it is not caught there), leaving the
conversation and configuration exactly as they were — in particular
`temperature` respectively `max_tokens` keep their prior values — and
the chat loop's generic handler prints an "Error: <description>" line
and continues the loop. -/
theorem c4_parse_error_propagates (env : StepEnv) (conv : List Turn)
    (cfg : ClaudeConfig) (input : Str)
    (h : (tempCmd.isPrefixOf input = true ∧
            env.pyFloat (strip (input.drop 5)) = none) ∨
         (maxCmd.isPrefixOf input = true ∧
            env.pyInt (strip (input.drop 4)) = none)) :
    ∃ e, process_commands env input conv cfg = .raised e conv cfg ∧
      chatStep env input conv cfg = ⟨conv, cfg, [.print (errLine e)], .next⟩ := by
  rcases h with ⟨hp, hn⟩ | ⟨hp, hn⟩
  · have h1 : sysCmd.isPrefixOf input = false :=
      isPrefixOf_false_of_incomp hp (by decide) (by decide)
    have hpc : process_commands env input conv cfg =
        .raised (.valueError (floatErrMsg (strip (input.drop 5)))) conv cfg := by
      unfold process_commands
      simp [h1, hp, hn]
    exact ⟨_, hpc, by unfold chatStep; rw [hpc]⟩
  · have h1 : sysCmd.isPrefixOf input = false :=
      isPrefixOf_false_of_incomp hp (by decide) (by decide)
    have h2 : tempCmd.isPrefixOf input = false :=
      isPrefixOf_false_of_incomp hp (by decide) (by decide)
    have hpc : process_commands env input conv cfg =
        .raised (.valueError (intErrMsg (strip (input.drop 4)))) conv cfg := by
      unfold process_commands
      simp [h1, h2, hp, hn]
    exact ⟨_, hpc, by unfold chatStep; rw [hpc]⟩

/-- Witness for C4 at the input "/temp abc". -/
theorem c4_parse_error_propagates_witness :
    ((tempCmd.isPrefixOf ("/temp abc".toList) = true ∧
        envOk.pyFloat (strip (("/temp abc".toList).drop 5)) = none) ∨
     (maxCmd.isPrefixOf ("/temp abc".toList) = true ∧
        envOk.pyInt (strip (("/temp abc".toList).drop 4)) = none)) ∧
    ∃ e, process_commands envOk ("/temp abc".toList)
        (initial_conversation ClaudeConfig.default) ClaudeConfig.default =
        .raised e (initial_conversation ClaudeConfig.default) ClaudeConfig.default ∧
      chatStep envOk ("/temp abc".toList)
        (initial_conversation ClaudeConfig.default) ClaudeConfig.default =
        ⟨initial_conversation ClaudeConfig.default, ClaudeConfig.default,
         [.print (errLine e)], .next⟩ :=
  ⟨Or.inl ⟨by decide, by decide⟩,
   c4_parse_error_propagates envOk (initial_conversation ClaudeConfig.default)
     ClaudeConfig.default ("/temp abc".toList) (Or.inl ⟨by decide, by decide⟩)⟩

/-- An environment in which the `/save` file write raises. -/
def envSaveFail : StepEnv :=
  { pyFloat := noneFloat, pyInt := noneInt,
    saveResult := some (.ioError ("No space left on device".toList)), now := [],
    showFloat := showFloatW, stream := .chunks [] none }

/-- Claim C5: on `/save` the log append happens before the conversation
reset — the `fileAppend` effect dumps the full pre-reset conversation
while the returned conversation is the reset `[t]` — and if the file
open or write raises, the conversation is returned exactly as it was,
the reset does not happen, and the loop's generic handler prints the
error and continues. -/
theorem c5_save_append_before_reset (env : StepEnv) (cfg : ClaudeConfig)
    (input : Str) (t : Turn) (rest : List Turn)
    (hin : lower input = saveCmd) :
    (env.saveResult = none →
      process_commands env input (t :: rest) cfg =
        .handled [t] cfg
          [.fileAppend env.now (t :: rest),
           .print ("Conversation appended to log".toList)]) ∧
    (∀ e, env.saveResult = some e →
      process_commands env input (t :: rest) cfg = .raised e (t :: rest) cfg ∧
      chatStep env input (t :: rest) cfg =
        ⟨t :: rest, cfg, [.print (errLine e)], .next⟩) := by
  have hq : saveCmd.isPrefixOf (lower input) = true := by rw [hin]; decide
  have h1 : sysCmd.isPrefixOf input = false := raw_guard_false hq (by decide) (by decide)
  have h2 : tempCmd.isPrefixOf input = false := raw_guard_false hq (by decide) (by decide)
  have h3 : maxCmd.isPrefixOf input = false := raw_guard_false hq (by decide) (by decide)
  constructor
  · intro hs
    unfold process_commands
    simp [h1, h2, h3, hin, hs, show saveCmd ≠ envCmd by decide]
  · intro e hs
    have hpc : process_commands env input (t :: rest) cfg =
        .raised e (t :: rest) cfg := by
      unfold process_commands
      simp [h1, h2, h3, hin, hs, show saveCmd ≠ envCmd by decide]
    exact ⟨hpc, by unfold chatStep; rw [hpc]⟩

/-- Witness for C5 at the input "/save", with a failing write. -/
theorem c5_save_append_before_reset_witness :
    (lower ("/save".toList) = saveCmd) ∧
    ((envSaveFail.saveResult = none →
      process_commands envSaveFail ("/save".toList)
          (⟨systemRole, "hi".toList⟩ :: [⟨userRole, "x".toList⟩]) ClaudeConfig.default =
        .handled [⟨systemRole, "hi".toList⟩] ClaudeConfig.default
          [.fileAppend envSaveFail.now
            (⟨systemRole, "hi".toList⟩ :: [⟨userRole, "x".toList⟩]),
           .print ("Conversation appended to log".toList)]) ∧
    (∀ e, envSaveFail.saveResult = some e →
      process_commands envSaveFail ("/save".toList)
          (⟨systemRole, "hi".toList⟩ :: [⟨userRole, "x".toList⟩]) ClaudeConfig.default =
        .raised e (⟨systemRole, "hi".toList⟩ :: [⟨userRole, "x".toList⟩])
          ClaudeConfig.default ∧
      chatStep envSaveFail ("/save".toList)
          (⟨systemRole, "hi".toList⟩ :: [⟨userRole, "x".toList⟩]) ClaudeConfig.default =
        ⟨⟨systemRole, "hi".toList⟩ :: [⟨userRole, "x".toList⟩], ClaudeConfig.default,
         [.print (errLine e)], .next⟩)) :=
  ⟨by decide,
   c5_save_append_before_reset envSaveFail ClaudeConfig.default ("/save".toList)
     ⟨systemRole, "hi".toList⟩ [⟨userRole, "x".toList⟩] (by decide)⟩

/-- Claim C6: `read_multiline_input` returns a first line not beginning
with a backslash unchanged as the complete logical input; if the first
line begins with a backslash it consumes every remaining raw line (no
marker check) until end-of-input and returns all collected lines, the
marker line included, joined with newline characters. -/
theorem c6_multiline_read (prompt line : Str) (rest : List Str) :
    (("\\".toList).isPrefixOf line = false →
      read_multiline_input prompt (line :: rest) =
        .value line rest [.print prompt]) ∧
    (("\\".toList).isPrefixOf line = true →
      read_multiline_input prompt (line :: rest) =
        .value (List.intercalate ("\n".toList) (line :: rest)) []
          [.print prompt, .print ("\n<end of input>\n".toList)]) := by
  constructor <;> intro h
  · simp only [read_multiline_input]
    rw [if_pos (by simpa using h)]
  · simp only [read_multiline_input]
    rw [if_neg (by simpa using h)]

/-- Witness for C6: raw lines `\first`, `second`, then end-of-input
yield the logical input "\first\nsecond". -/
theorem c6_multiline_read_witness :
    (("\\".toList).isPrefixOf ("\\first".toList) = true) ∧
    read_multiline_input ("You: ".toList) ["\\first".toList, "second".toList] =
      .value ("\\first\nsecond".toList) []
        [.print ("You: ".toList), .print ("\n<end of input>\n".toList)] := by
  refine ⟨by decide, ?_⟩
  have h := (c6_multiline_read ("You: ".toList) ("\\first".toList)
    ["second".toList]).2 (by decide)
  rw [h]
  decide

/-- Claim C7: for every conversation with the system turn at index 0 and
every configuration, `ask_claude` issues one request whose system
instruction is the content of the turn at index 0, whose message list is
the tail mapped to role/content pairs with "assistant" kept and every
other role sent as "user", and whose generation parameters are the
configuration's `max_tokens`, `temperature` and `model`. -/
theorem c7_request_construction (t : Turn) (rest : List Turn)
    (cfg : ClaudeConfig) (h : t.role = systemRole) :
    ∃ req, ask_claude (t :: rest) cfg = some req ∧
      req.system = t.content ∧
      req.model = cfg.model ∧
      req.max_tokens = cfg.max_tokens ∧
      req.temperature = cfg.temperature ∧
      req.messages = rest.map normalizeTurn :=
  ⟨_, rfl, rfl, rfl, rfl, rfl, rfl⟩

/-- Witness for C7 at a two-turn conversation. -/
theorem c7_request_construction_witness :
    ((⟨systemRole, "p".toList⟩ : Turn).role = systemRole) ∧
    ∃ req, ask_claude [⟨systemRole, "p".toList⟩, ⟨userRole, "hi".toList⟩]
        ClaudeConfig.default = some req ∧
      req.system = (⟨systemRole, "p".toList⟩ : Turn).content ∧
      req.model = ClaudeConfig.default.model ∧
      req.max_tokens = ClaudeConfig.default.max_tokens ∧
      req.temperature = ClaudeConfig.default.temperature ∧
      req.messages = [⟨userRole, "hi".toList⟩].map normalizeTurn :=
  ⟨by decide, c7_request_construction ⟨systemRole, "p".toList⟩
    [⟨userRole, "hi".toList⟩] ClaudeConfig.default (by decide)⟩

/-- An environment in which the remote create call raises. -/
def envStreamFail : StepEnv :=
  { pyFloat := noneFloat, pyInt := noneInt, saveResult := none, now := [],
    showFloat := showFloatW,
    stream := .createRaises (.apiError ("Connection error".toList)) }

/-- Claim C8: when the remote model call or the consumption of its
fragment stream fails, the generic handler prints the error and the
session continues; the conversation equals its pre-turn state plus the
just-appended user turn, with no assistant turn for that turn, and the
configuration is untouched. -/
theorem c8_remote_failure_keeps_user_turn (env : StepEnv) (conv : List Turn)
    (cfg : ClaudeConfig) (input : Str) (e : PyExc)
    (hpc : process_commands env input conv cfg = .notCommand conv cfg)
    (hs : env.stream = .createRaises e ∨ ∃ cs, env.stream = .chunks cs (some e)) :
    (chatStep env input conv cfg).conversation = conv ++ [⟨userRole, input⟩] ∧
    (chatStep env input conv cfg).config = cfg ∧
    (chatStep env input conv cfg).outcome = .next ∧
    ∃ pre, (chatStep env input conv cfg).effects = pre ++ [.print (errLine e)] := by
  unfold chatStep
  rw [hpc]
  rcases hs with hs | ⟨cs, hs⟩ <;> rw [hs]
  · exact ⟨rfl, rfl, rfl, ⟨[], rfl⟩⟩
  · exact ⟨rfl, rfl, rfl, ⟨chunkPrints cs, rfl⟩⟩

/-- Witness for C8: the create call raises on the input "Hello". -/
theorem c8_remote_failure_keeps_user_turn_witness :
    (process_commands envStreamFail ("Hello".toList)
        (initial_conversation ClaudeConfig.default) ClaudeConfig.default =
      .notCommand (initial_conversation ClaudeConfig.default) ClaudeConfig.default) ∧
    (envStreamFail.stream = .createRaises (.apiError ("Connection error".toList)) ∨
      ∃ cs, envStreamFail.stream = .chunks cs (some (.apiError ("Connection error".toList)))) ∧
    ((chatStep envStreamFail ("Hello".toList)
        (initial_conversation ClaudeConfig.default) ClaudeConfig.default).conversation =
      initial_conversation ClaudeConfig.default ++ [⟨userRole, "Hello".toList⟩] ∧
    (chatStep envStreamFail ("Hello".toList)
        (initial_conversation ClaudeConfig.default) ClaudeConfig.default).config =
      ClaudeConfig.default ∧
    (chatStep envStreamFail ("Hello".toList)
        (initial_conversation ClaudeConfig.default) ClaudeConfig.default).outcome = .next ∧
    ∃ pre, (chatStep envStreamFail ("Hello".toList)
        (initial_conversation ClaudeConfig.default) ClaudeConfig.default).effects =
      pre ++ [.print (errLine (.apiError ("Connection error".toList)))]) := by
  have hpcW : process_commands envStreamFail ("Hello".toList)
      (initial_conversation ClaudeConfig.default) ClaudeConfig.default =
      .notCommand (initial_conversation ClaudeConfig.default) ClaudeConfig.default :=
    pc_notCommand_of_guards envStreamFail (initial_conversation ClaudeConfig.default)
      ClaudeConfig.default ("Hello".toList) (by decide) (by decide) (by decide)
      (by decide) (by decide) (by decide) (by decide) (by decide) (by decide)
  exact ⟨hpcW, Or.inl (by decide),
    c8_remote_failure_keeps_user_turn envStreamFail
      (initial_conversation ClaudeConfig.default) ClaudeConfig.default
      ("Hello".toList) (.apiError ("Connection error".toList)) hpcW
      (Or.inl (by decide))⟩

/-- Counterexample for C9 as stated: at end-of-input on the primary read
(`stdin = []`), `read_multiline_input` calls `sys.exit()` — success
status 0 — but the only output produced is the prompt itself: no closing
message (in particular not the "Closing..." of the chat loop's EOFError
handler) is printed, because `read_multiline_input` exits before any
EOFError can reach that handler. -/
theorem c9_counterexample :
    (read_multiline_input ("You: ".toList) []).code = some 0 ∧
    (read_multiline_input ("You: ".toList) []).effects =
      [.print ("You: ".toList)] ∧
    Effect.print ("Closing...".toList) ∉
      (read_multiline_input ("You: ".toList) []).effects := by
  decide

/-- Claim C9 as amended: end-of-input on the primary read is treated as
a clean shutdown, not an error — the process exits immediately with
success status 0; no closing message is printed (the loop's EOFError
handler that would print one is bypassed, since `read_multiline_input`
exits directly), the prompt being the only output of the read. -/
theorem c9_amended_eof_clean_exit (prompt : Str) :
    read_multiline_input prompt [] = .exited 0 [.print prompt] := rfl

/-- Claim C10: an input whose lowercasing merely begins with "/exit",
"/quit" or "/bye" without being exactly one of them is not recognized as
a command: `process_commands` returns the "not a command" indicator with
state untouched and the chat loop forwards the line to the model as an
ordinary user turn instead of terminating the process. -/
theorem c10_inexact_exit_is_forwarded (env : StepEnv) (conv : List Turn)
    (cfg : ClaudeConfig) (input : Str)
    (hpre : exitCmd.isPrefixOf (lower input) = true ∨
            quitCmd.isPrefixOf (lower input) = true ∨
            byeCmd.isPrefixOf (lower input) = true)
    (hne : lower input ∉ [exitCmd, quitCmd, byeCmd]) :
    process_commands env input conv cfg = .notCommand conv cfg ∧
    (chatStep env input conv cfg).outcome = .next ∧
    ∃ tail, (chatStep env input conv cfg).conversation =
      conv ++ ⟨userRole, input⟩ :: tail := by
  have hg : sysCmd.isPrefixOf input = false ∧ tempCmd.isPrefixOf input = false ∧
      maxCmd.isPrefixOf input = false ∧ lower input ≠ envCmd ∧
      lower input ≠ saveCmd ∧ lower input ≠ newCmd ∧
      helpCmd.isPrefixOf (lower input) = false ∧ input ≠ [] := by
    rcases hpre with hq | hq | hq <;>
      exact ⟨raw_guard_false hq (by decide) (by decide),
        raw_guard_false hq (by decide) (by decide),
        raw_guard_false hq (by decide) (by decide),
        lower_ne_of_not_prefix hq (by decide),
        lower_ne_of_not_prefix hq (by decide),
        lower_ne_of_not_prefix hq (by decide),
        isPrefixOf_false_of_incomp hq (by decide) (by decide),
        ne_nil_of_isPrefixOf hq (by decide)⟩
  obtain ⟨h1, h2, h3, h4, h5, h6, h7, h8⟩ := hg
  have hpc := pc_notCommand_of_guards env conv cfg input h1 h2 h3 h4 h5 h6 h7 h8 hne
  exact ⟨hpc, chatStep_appends_user env conv cfg input hpc⟩

/-- Witness for C10 at the input "/exit now". -/
theorem c10_inexact_exit_is_forwarded_witness :
    (exitCmd.isPrefixOf (lower ("/exit now".toList)) = true ∨
     quitCmd.isPrefixOf (lower ("/exit now".toList)) = true ∨
     byeCmd.isPrefixOf (lower ("/exit now".toList)) = true) ∧
    (lower ("/exit now".toList) ∉ [exitCmd, quitCmd, byeCmd]) ∧
    (process_commands envOk ("/exit now".toList)
        (initial_conversation ClaudeConfig.default) ClaudeConfig.default =
      .notCommand (initial_conversation ClaudeConfig.default) ClaudeConfig.default ∧
    (chatStep envOk ("/exit now".toList)
        (initial_conversation ClaudeConfig.default) ClaudeConfig.default).outcome = .next ∧
    ∃ tail, (chatStep envOk ("/exit now".toList)
        (initial_conversation ClaudeConfig.default) ClaudeConfig.default).conversation =
      initial_conversation ClaudeConfig.default ++ ⟨userRole, "/exit now".toList⟩ :: tail) :=
  ⟨Or.inl (by decide), by decide,
   c10_inexact_exit_is_forwarded envOk (initial_conversation ClaudeConfig.default)
     ClaudeConfig.default ("/exit now".toList) (Or.inl (by decide)) (by decide)⟩
